import Mathlib

/-
Verification of the Technical Analysis core of a stock-analysis web app.

The indicator pipeline lives in a React component (`TechnicalIndicators`):
pure functions `calculateSMA`, `calculateEMA`, `calculateRSI`, `calculateKDJ`
plus the report-assembly effect body.  We embed them shallowly over ℚ
(JS numbers are modelled as exact rationals; ℚ division is total with
x / 0 = 0, so wherever JS would produce NaN/Infinity we avoid value-level
assertions and only state structural facts).  JS truthiness quirks
(`x || d` treats 0 as falsy, `a && b` likewise) are modelled explicitly.
-/

namespace StockAnalysis

/-- One OHLCV bar, mirroring the TS `KLineData` interface (the string
`code`/`date` fields play no role in the numeric pipeline and are dropped;
`date` is kept as an ordinal for fidelity to the data model). -/
structure KLineData where
  date : Int
  open_ : ℚ
  high : ℚ
  low : ℚ
  close : ℚ
  volume : ℚ
  amount : ℚ
deriving DecidableEq

instance : Inhabited KLineData := ⟨⟨0, 0, 0, 0, 0, 0, 0⟩⟩

/-- Reads `data[n].close` (in-bounds wherever the source indexes). -/
def closeAt (data : List KLineData) (n : ℕ) : ℚ := (data.getD n default).close

/-- Reads `data[n].high`. -/
def highAt (data : List KLineData) (n : ℕ) : ℚ := (data.getD n default).high

/-- Reads `data[n].low`. -/
def lowAt (data : List KLineData) (n : ℕ) : ℚ := (data.getD n default).low

/-- Embedding of `calculateSMA` (src/unnamed/part_003, lines 74-88):
for each index `i`, `null` when `i < period - 1`, else the inner loop
`for j in [0, period)` accumulates `data[i-j].close` and pushes
`sum / period`.  `period` is a JS number used as an integer, kept as ℤ. -/
def calculateSMA (data : List KLineData) (period : ℤ) : List (Option ℚ) :=
  (List.range data.length).map fun (i : ℕ) =>
    if (i : ℤ) < period - 1 then none
    else some
      (((List.range period.toNat).foldl (fun sum j => sum + closeAt data (i - j)) 0)
        / (period : ℚ))

/-- One iteration of `calculateEMA`'s loop: the accumulator carries the
pushed list and the mutable `ema` variable (`null` initially).  In the
final else-branch the source reads `ema as number`; at runtime JS coerces
a `null` there to 0 in arithmetic, hence `getD 0`. -/
def emaStep (values : List ℚ) (period : ℤ) (multiplier : ℚ)
    (acc : List (Option ℚ) × Option ℚ) (i : ℕ) : List (Option ℚ) × Option ℚ :=
  if (i : ℤ) < period - 1 then (acc.1 ++ [none], acc.2)
  else if (i : ℤ) = period - 1 then
    let s : ℚ :=
      ((List.range period.toNat).foldl (fun sum j => sum + values.getD j 0) 0)
        / (period : ℚ)
    (acc.1 ++ [some s], some s)
  else
    let currentEma := acc.2.getD 0
    let newEma := (values.getD i 0 - currentEma) * multiplier + currentEma
    (acc.1 ++ [some newEma], some newEma)

/-- Embedding of `calculateEMA` (src/unnamed/part_003, lines 91-114):
`multiplier = 2/(period+1)`; first `period-1` entries `null`; entry
`period-1` seeded with the SMA of the first `period` values; thereafter
`ema = (values[i] - ema) * multiplier + ema`. -/
def calculateEMA (values : List ℚ) (period : ℤ) : List (Option ℚ) :=
  ((List.range values.length).foldl
    (emaStep values period (2 / ((period : ℚ) + 1))) ([], none)).1

/-- The `changes` array of `calculateRSI`: `changes[0] = 0`,
`changes[i] = data[i].close - data[i-1].close`. -/
def changesAt (data : List KLineData) (i : ℕ) : ℚ :=
  if i = 0 then 0 else closeAt data i - closeAt data (i - 1)

/-- Embedding of `calculateRSI` (src/unnamed/part_003, lines 117-151):
`null` at `i = 0` and at `1 ≤ i < period`; otherwise the loop
`for j in [1, period]` looks at `changes[i - j + 1]`, adding positive
changes to `gains` and subtracting non-positive ones from `losses`;
then `avgGain = gains/period`, `avgLoss = losses/period`, and the value
is `100` if `avgLoss == 0`, else `100 - 100/(1 + avgGain/avgLoss)`. -/
def calculateRSI (data : List KLineData) (period : ℤ) : List (Option ℚ) :=
  (List.range data.length).map fun (i : ℕ) =>
    if i = 0 then none
    else if (i : ℤ) < period then none
    else
      let gl : ℚ × ℚ :=
        (List.range period.toNat).foldl
          (fun gl j0 =>
            let c := changesAt data (i + 1 - (j0 + 1))
            if 0 < c then (gl.1 + c, gl.2) else (gl.1, gl.2 - c))
          (0, 0)
      let avgGain := gl.1 / (period : ℚ)
      let avgLoss := gl.2 / (period : ℚ)
      if avgLoss = 0 then some 100
      else some (100 - 100 / (1 + avgGain / avgLoss))

/-- The spec's trailing window of `period` bar-to-bar deltas ending at `i`
(delta indices `i, i-1, …, i-period+1`). -/
def rsiWindow (data : List KLineData) (period : ℤ) (i : ℕ) : List ℚ :=
  (List.range period.toNat).map fun j => changesAt data (i - j)

/-- Spec-side `gains`: sum of the positive deltas of the window. -/
def specGains (data : List KLineData) (period : ℤ) (i : ℕ) : ℚ :=
  ((rsiWindow data period i).filter (fun c => decide (0 < c))).sum

/-- Spec-side `losses`: sum of the absolute values of the negative deltas
of the window. -/
def specLosses (data : List KLineData) (period : ℤ) (i : ℕ) : ℚ :=
  (((rsiWindow data period i).filter (fun c => decide (c < 0))).map (fun c => |c|)).sum

/-- The RSI value the spec prescribes at a defined index: averages of the
windowed gain/loss sums, `100` when `avgLoss = 0`, else
`100 - 100/(1 + avgGain/avgLoss)`. -/
def rsiSpecValue (data : List KLineData) (period : ℤ) (i : ℕ) : ℚ :=
  let avgGain := specGains data period i / (period : ℚ)
  let avgLoss := specLosses data period i / (period : ℚ)
  if avgLoss = 0 then 100 else 100 - 100 / (1 + avgGain / avgLoss)

/-- The arithmetic mean of `close` over the trailing `period` bars ending
at `i`, as the spec words it. -/
def smaSpecValue (data : List KLineData) (period : ℤ) (i : ℕ) : ℚ :=
  (((List.range period.toNat).map fun j => closeAt data (i - j)).sum) / (period : ℚ)

/-- One KDJ output row. -/
structure KDJValue where
  k : ℚ
  d : ℚ
  j : ℚ
deriving DecidableEq

instance : Inhabited KDJValue := ⟨⟨0, 0, 0⟩⟩

/-- JS `x || dflt` for a number `x`: `0` is falsy. -/
def jsOrQ (x dflt : ℚ) : ℚ := if x = 0 then dflt else x

/-- The running maximum of `calculateKDJ`: starts from `data[i].high` and
folds `for j in [1, period)` over `data[i-j].high`. -/
def windowHigh (data : List KLineData) (period : ℤ) (i : ℕ) : ℚ :=
  (List.range (period - 1).toNat).foldl
    (fun h j0 => max h (highAt data (i - (j0 + 1)))) (highAt data i)

/-- The running minimum of `calculateKDJ` over `data[i-j].low`. -/
def windowLow (data : List KLineData) (period : ℤ) (i : ℕ) : ℚ :=
  (List.range (period - 1).toNat).foldl
    (fun l j0 => min l (lowAt data (i - (j0 + 1)))) (lowAt data i)

/-- The raw stochastic value as computed: `50` when the window extrema
coincide, else `(close[i] - low) / (high - low) * 100`. -/
def rsvAt (data : List KLineData) (period : ℤ) (i : ℕ) : ℚ :=
  let high := windowHigh data period i
  let low := windowLow data period i
  if high = low then 50 else (closeAt data i - low) / (high - low) * 100

/-- One iteration of `calculateKDJ`'s loop over `i`, appending to the
`result` array.  The source reads `result[i-1]?.k || 50` (and likewise
for `d`): an absent previous row — or a previous value of exactly 0,
which JS deems falsy — is replaced by 50. -/
def kdjStep (data : List KLineData) (period : ℤ)
    (result : List KDJValue) (i : ℕ) : List KDJValue :=
  if (i : ℤ) < period - 1 then result ++ [⟨50, 50, 50⟩]
  else
    let rsv := rsvAt data period i
    let prevK : ℚ := match result.get? (i - 1) with
      | some r => jsOrQ r.k 50
      | none => 50
    let prevD : ℚ := match result.get? (i - 1) with
      | some r => jsOrQ r.d 50
      | none => 50
    let k := (2 * prevK + rsv) / 3
    let d := (2 * prevD + k) / 3
    result ++ [⟨k, d, 3 * k - 2 * d⟩]

/-- The first `n` iterations of `calculateKDJ`'s loop. -/
def kdjFold (data : List KLineData) (period : ℤ) (n : ℕ) : List KDJValue :=
  (List.range n).foldl (kdjStep data period) []

/-- Embedding of `calculateKDJ` (src/unnamed/part_003, lines 154-179):
seeds `{k:50, d:50, j:50}` while `i < period - 1`, else takes the window
extrema of `high`/`low` over the trailing `period` bars, the RSV, and the
recurrence `k = (2*prevK + rsv)/3`, `d = (2*prevD + k)/3`, `j = 3k - 2d`. -/
def calculateKDJ (data : List KLineData) (period : ℤ) : List KDJValue :=
  kdjFold data period data.length

/-- Signal classification values of the TS union `'buy' | 'sell' | 'neutral'`. -/
inductive Signal where
  | buy
  | sell
  | neutral
deriving DecidableEq

/-- One report row, mirroring the TS `TechnicalIndicator` interface
(`value: number`, optional `signal`, `description`). -/
structure TechnicalIndicator where
  name : String
  value : ℚ
  signal : Option Signal
  description : String
deriving DecidableEq

instance : Inhabited TechnicalIndicator := ⟨⟨"", 0, none, ""⟩⟩

/-- JS `x || dflt` for an `Option` number `x`: `null` and `0` both fall
back to the default. -/
def jsOrOpt (x : Option ℚ) (dflt : ℚ) : ℚ :=
  match x with
  | some v => jsOrQ v dflt
  | none => dflt

/-- The inlined RSI signal ternary of the orchestrator
(src/unnamed/part_003, lines 248-254): `latestRSI ? (latestRSI > 70 ?
'sell' : latestRSI < 30 ? 'buy' : 'neutral') : 'neutral'`.  A `null`
RSI — and an RSI of exactly 0, which JS deems falsy — takes the outer
`'neutral'` branch. -/
def rsiSignal : Option ℚ → Signal
  | none => .neutral
  | some v =>
    if v = 0 then .neutral
    else if v > 70 then .sell
    else if v < 30 then .buy
    else .neutral

/-- The amended specification of the RSI signal rule, written from the
spec's words with the falsy-zero behaviour made explicit: `neutral` when
the RSI is `None` or exactly 0, `buy` when `RSI < 30` (and nonzero),
`sell` when `RSI > 70`, `neutral` otherwise. -/
def rsiSignalSpec : Option ℚ → Signal
  | none => .neutral
  | some v =>
    if v = 0 then .neutral
    else if v < 30 then .buy
    else if 70 < v then .sell
    else .neutral

/-- The inlined MA-cross ternary of the orchestrator: `a && b ?
(a > b ? 'buy' : 'sell') : 'neutral'`; either operand being `null` or 0
(falsy) yields `'neutral'`. -/
def maCrossSignal (a b : Option ℚ) : Signal :=
  match a, b with
  | some x, some y =>
    if x = 0 ∨ y = 0 then .neutral
    else if x > y then .buy else .sell
  | _, _ => .neutral

/-- Embedding of the report-assembly effect body of `TechnicalIndicators`
(src/unnamed/part_003, lines 209-287).  The effect returns early when
`klineData.length === 0` (no report is assembled; modelled as `none`);
otherwise it builds the fixed seven-entry list.  Latest values are read
at `length - 1`; `|| 0` / `|| 50` fallbacks and `&&`-truthiness are
modelled via `jsOrOpt`/`jsOrQ` and explicit matches. -/
def buildIndicators (klineData : List KLineData) : Option (List TechnicalIndicator) :=
  if klineData.length = 0 then none
  else
    let prev : Option KLineData :=
      if klineData.length > 1 then some (klineData.getD (klineData.length - 2) default)
      else none
    let sma5 := calculateSMA klineData 5
    let sma10 := calculateSMA klineData 10
    let sma20 := calculateSMA klineData 20
    let rsi := calculateRSI klineData 14
    let kdj := calculateKDJ klineData 9
    let latestSMA5 := sma5.getD (sma5.length - 1) none
    let latestSMA10 := sma10.getD (sma10.length - 1) none
    let latestSMA20 := sma20.getD (sma20.length - 1) none
    let latestRSI := rsi.getD (rsi.length - 1) none
    let latestKDJ : Option KDJValue := kdj.get? (kdj.length - 1)
    some
      [ { name := "MA5", value := jsOrOpt latestSMA5 0,
          signal := some (maCrossSignal latestSMA5 latestSMA10),
          description := "5日均线" },
        { name := "MA10", value := jsOrOpt latestSMA10 0,
          signal := some (maCrossSignal latestSMA10 latestSMA20),
          description := "10日均线" },
        { name := "MA20", value := jsOrOpt latestSMA20 0,
          signal := none,
          description := "20日均线" },
        { name := "RSI", value := jsOrOpt latestRSI 50,
          signal := some (rsiSignal latestRSI),
          description := "相对强弱指数" },
        { name := "KDJ.K",
          value := (match latestKDJ with | some r => jsOrQ r.k 50 | none => 50),
          signal := some
            (match latestKDJ, prev with
             | some lk, some _ =>
               if lk.k > (match kdj.get? (kdj.length - 2) with
                          | some r => jsOrQ r.k 50
                          | none => 50)
               then .buy else .sell
             | _, _ => .neutral),
          description := "K值" },
        { name := "KDJ.D",
          value := (match latestKDJ with | some r => jsOrQ r.d 50 | none => 50),
          signal := none,
          description := "D值" },
        { name := "KDJ.J",
          value := (match latestKDJ with | some r => jsOrQ r.j 50 | none => 50),
          signal := some
            (match latestKDJ, prev with
             | some lk, some _ =>
               if lk.j > (match kdj.get? (kdj.length - 2) with
                          | some r => jsOrQ r.j 50
                          | none => 50)
               then .buy else .sell
             | _, _ => .neutral),
          description := "J值" } ]

/-- Modelled from the spec: src/ contains no candlestick pattern detector
(spec §4.6 describes one; no implementation exists in the repository).
Per the spec, a Doji is a bar whose body is ≈ 0 relative to its range:
body `|close - open|` over range `high - low` below a small epsilon
threshold, here a parameter `eps`. -/
def isDoji (eps : ℚ) (b : KLineData) : Bool :=
  decide (|b.close - b.open_| / (b.high - b.low) < eps)

/-- A bar with all four prices equal to `c` (used for close-only examples). -/
def mkBarC (c : ℚ) : KLineData := ⟨0, c, c, c, c, 0, 0⟩

/-- A bar with given open/high/low/close. -/
def mkBar (o h l c : ℚ) : KLineData := ⟨0, o, h, l, c, 0, 0⟩

/-- The spec's SMA end-to-end example series: closes 1,2,3,4,5. -/
def ex5 : List KLineData := [mkBarC 1, mkBarC 2, mkBarC 3, mkBarC 4, mkBarC 5]

/-- 15 bars of strictly decreasing closes 15,14,…,1. -/
def dec15 : List KLineData :=
  [mkBarC 15, mkBarC 14, mkBarC 13, mkBarC 12, mkBarC 11, mkBarC 10, mkBarC 9,
   mkBarC 8, mkBarC 7, mkBarC 6, mkBarC 5, mkBarC 4, mkBarC 3, mkBarC 2, mkBarC 1]

/-- 15 bars of constant close 10. -/
def const15 : List KLineData :=
  [mkBarC 10, mkBarC 10, mkBarC 10, mkBarC 10, mkBarC 10, mkBarC 10, mkBarC 10,
   mkBarC 10, mkBarC 10, mkBarC 10, mkBarC 10, mkBarC 10, mkBarC 10, mkBarC 10,
   mkBarC 10]

/-- The spec's RSI end-to-end example: 20 bars of strictly increasing
closes 10.00, 10.10, …, 11.90. -/
def inc20 : List KLineData :=
  [mkBarC 10, mkBarC (101 / 10), mkBarC (102 / 10), mkBarC (103 / 10),
   mkBarC (104 / 10), mkBarC (105 / 10), mkBarC (106 / 10), mkBarC (107 / 10),
   mkBarC (108 / 10), mkBarC (109 / 10), mkBarC 11, mkBarC (111 / 10),
   mkBarC (112 / 10), mkBarC (113 / 10), mkBarC (114 / 10), mkBarC (115 / 10),
   mkBarC (116 / 10), mkBarC (117 / 10), mkBarC (118 / 10), mkBarC (119 / 10)]

/-- A two-bar series whose first bar has `close` below `low` (violating
the data-model invariant), driving K to exactly 0 at index 0. -/
def cexKdj : List KLineData := [mkBar 0 1 0 (-1), mkBar 0 1 0 1]

/-! ### Helper lemmas -/

lemma getElem?_map_range {α : Type _} (f : ℕ → α) {n i : ℕ} (h : i < n) :
    ((List.range n).map f)[i]? = some (f i) := by
  rw [List.getElem?_map, List.getElem?_range h]; rfl

lemma getD_map_range {α : Type _} (f : ℕ → α) {n i : ℕ} (h : i < n) (d : α) :
    ((List.range n).map f).getD i d = f i := by
  rw [List.getD_eq_getElem?_getD, getElem?_map_range f h]; rfl

lemma mem_map_range {α : Type _} {f : ℕ → α} {n : ℕ} {x : α}
    (hx : x ∈ (List.range n).map f) : ∃ i < n, f i = x := by
  obtain ⟨i, hi, hfi⟩ := List.mem_map.mp hx
  exact ⟨i, List.mem_range.mp hi, hfi⟩

lemma calculateSMA_getD (data : List KLineData) (period : ℤ)
    {i : ℕ} (hi : i < data.length) :
    (calculateSMA data period).getD i none =
      if (i : ℤ) < period - 1 then none else some (smaSpecValue data period i) := by
  rw [calculateSMA, getD_map_range _ hi]
  split
  · rfl
  · rw [smaSpecValue, List.sum_eq_foldl, List.foldl_map]

lemma calculateSMA_length (data : List KLineData) (period : ℤ) :
    (calculateSMA data period).length = data.length := by
  rw [calculateSMA, List.length_map, List.length_range]

lemma calculateRSI_length (data : List KLineData) (period : ℤ) :
    (calculateRSI data period).length = data.length := by
  rw [calculateRSI, List.length_map, List.length_range]

lemma gainsLossesFold (w : List ℚ) (g l : ℚ) :
    w.foldl (fun gl c => if 0 < c then (gl.1 + c, gl.2) else (gl.1, gl.2 - c)) (g, l) =
      (g + ((w.filter fun c => decide (0 < c)).sum),
       l + (((w.filter fun c => decide (c < 0)).map fun c => |c|).sum)) := by
  induction w generalizing g l with
  | nil => simp
  | cons c w ih =>
    rw [List.foldl_cons]
    rcases lt_trichotomy c 0 with hneg | h0 | hpos
    · rw [if_neg (by linarith), ih]
      simp only [List.filter_cons, decide_eq_true_eq, if_neg (by linarith : ¬ (0 < c)),
        if_pos hneg, List.map_cons, List.sum_cons, abs_of_neg hneg, Prod.mk.injEq]
      constructor <;> ring
    · subst h0
      rw [if_neg (lt_irrefl 0), ih]
      simp
    · rw [if_pos hpos, ih]
      simp only [List.filter_cons, decide_eq_true_eq, if_pos hpos,
        if_neg (by linarith : ¬ (c < 0)), List.sum_cons, Prod.mk.injEq]
      constructor <;> ring

lemma calculateRSI_getD (data : List KLineData) (period : ℤ) (hp : 1 ≤ period)
    {i : ℕ} (hi : i < data.length) :
    (calculateRSI data period).getD i none =
      if (i : ℤ) < period then none else some (rsiSpecValue data period i) := by
  rw [calculateRSI, getD_map_range _ hi]
  by_cases h0 : i = 0
  · subst h0
    rw [if_pos rfl, if_pos (by exact_mod_cast hp)]
  · rw [if_neg h0]
    by_cases hip : (i : ℤ) < period
    · rw [if_pos hip, if_pos hip]
    · rw [if_neg hip, if_neg hip]
      have hfold :
          (List.range period.toNat).foldl
            (fun (gl : ℚ × ℚ) j0 =>
              let c := changesAt data (i + 1 - (j0 + 1))
              if 0 < c then (gl.1 + c, gl.2) else (gl.1, gl.2 - c)) ((0 : ℚ), (0 : ℚ)) =
            (specGains data period i, specLosses data period i) := by
        simp only [Nat.succ_sub_succ]
        refine Eq.trans ((List.foldl_map (fun j => changesAt data (i - j))
          (fun (gl : ℚ × ℚ) c => if 0 < c then (gl.1 + c, gl.2) else (gl.1, gl.2 - c))
          (List.range period.toNat) ((0 : ℚ), (0 : ℚ))).symm) ?_
        rw [← rsiWindow, gainsLossesFold, zero_add, zero_add, specGains, specLosses]
      simp only [rsiSpecValue, hfold]
      split <;> rfl

/-! ### C1 -/

/-- C1: RSI is `None` at every index below `period` and, from `period`
on, is computed from a fresh trailing window of the `period` bar-to-bar
close deltas ending at `i` (`delta 0 = 0` by definition): `gains` the sum
of the positive deltas, `losses` the sum of the absolute values of the
negative deltas, `avgGain = gains/period`, `avgLoss = losses/period`,
and the value is `100` when `avgLoss = 0` (a defined rational, never
infinite or NaN), else `100 - 100/(1 + avgGain/avgLoss)` — the naive
windowed-recompute variant, not Wilder smoothing. -/
theorem C1_rsi_windowed_recompute (data : List KLineData) (period : ℤ)
    (hp : 1 ≤ period) {i : ℕ} (hi : i < data.length) :
    (calculateRSI data period).getD i none =
      if (i : ℤ) < period then none else some (rsiSpecValue data period i) :=
  calculateRSI_getD data period hp hi

/-- Witness for C1 on the five-bar series with period 2, index 4. -/
theorem C1_rsi_witness :
    (1 ≤ (2 : ℤ) ∧ 4 < ex5.length) ∧
    ((calculateRSI ex5 2).getD 4 none =
      if ((4 : ℕ) : ℤ) < 2 then none else some (rsiSpecValue ex5 2 4)) :=
  ⟨⟨by decide, by decide⟩, C1_rsi_windowed_recompute ex5 2 (by decide) (by decide)⟩

/-! ### KDJ machinery -/

lemma kdjFold_succ (data : List KLineData) (period : ℤ) (n : ℕ) :
    kdjFold data period (n + 1) = kdjStep data period (kdjFold data period n) n := by
  rw [kdjFold, List.range_succ, List.foldl_append, List.foldl_cons, List.foldl_nil,
    ← kdjFold]

lemma kdjStep_length (data : List KLineData) (period : ℤ)
    (result : List KDJValue) (i : ℕ) :
    (kdjStep data period result i).length = result.length + 1 := by
  rw [kdjStep]
  split <;> rw [List.length_append] <;> rfl

lemma kdjFold_length (data : List KLineData) (period : ℤ) (n : ℕ) :
    (kdjFold data period n).length = n := by
  induction n with
  | zero => rfl
  | succ k ih =>
    rw [kdjFold_succ, kdjStep_length, ih]

lemma calculateKDJ_length (data : List KLineData) (period : ℤ) :
    (calculateKDJ data period).length = data.length :=
  kdjFold_length data period data.length

lemma kdjFold_getElem?_stable (data : List KLineData) (period : ℤ) {m n i : ℕ}
    (hmn : m ≤ n) (him : i < m) :
    (kdjFold data period n)[i]? = (kdjFold data period m)[i]? := by
  induction n with
  | zero => omega
  | succ k ih =>
    rcases Nat.eq_or_lt_of_le hmn with h | h
    · rw [h]
    · have hmk : m ≤ k := Nat.lt_succ_iff.mp h
      rw [kdjFold_succ]
      have hik : i < (kdjFold data period k).length := by
        rw [kdjFold_length]; omega
      rw [kdjStep]
      split
      · rw [List.getElem?_append_left hik, ih hmk]
      · simp only []
        rw [List.getElem?_append_left hik, ih hmk]

lemma bar_mem (data : List KLineData) {i : ℕ} (hi : i < data.length) :
    data.getD i default ∈ data := by
  rw [List.getD_eq_getElem?_getD, List.getElem?_eq_getElem hi]
  exact List.getElem_mem hi

lemma le_foldl_max (f : ℕ → ℚ) (l : List ℕ) (a : ℚ) :
    a ≤ l.foldl (fun h y => max h (f y)) a := by
  induction l generalizing a with
  | nil => exact le_refl a
  | cons x l ih => exact le_trans (le_max_left a (f x)) (ih _)

lemma foldl_min_le (f : ℕ → ℚ) (l : List ℕ) (a : ℚ) :
    l.foldl (fun h y => min h (f y)) a ≤ a := by
  induction l generalizing a with
  | nil => exact le_refl a
  | cons x l ih => exact le_trans (ih _) (min_le_left a (f x))

lemma foldl_max_ge (f : ℕ → ℚ) (l : List ℕ) :
    ∀ (a : ℚ) {x : ℕ}, x ∈ l → f x ≤ l.foldl (fun h y => max h (f y)) a := by
  induction l with
  | nil => intro a x hx; cases hx
  | cons z l ih =>
    intro a x hx
    rcases List.mem_cons.mp hx with h | h
    · subst h
      exact le_trans (le_max_right a (f x)) (le_foldl_max f l _)
    · exact ih _ h

lemma foldl_min_ge (f : ℕ → ℚ) (l : List ℕ) :
    ∀ (a : ℚ) {x : ℕ}, x ∈ l → l.foldl (fun h y => min h (f y)) a ≤ f x := by
  induction l with
  | nil => intro a x hx; cases hx
  | cons z l ih =>
    intro a x hx
    rcases List.mem_cons.mp hx with h | h
    · subst h
      exact le_trans (foldl_min_le f l _) (min_le_right a (f x))
    · exact ih _ h

lemma foldl_max_cases (f : ℕ → ℚ) (l : List ℕ) (a : ℚ) :
    l.foldl (fun h y => max h (f y)) a = a ∨
      ∃ x ∈ l, l.foldl (fun h y => max h (f y)) a = f x := by
  induction l generalizing a with
  | nil => exact Or.inl rfl
  | cons z l ih =>
    rcases ih (max a (f z)) with h | ⟨x, hx, hfx⟩
    · rw [List.foldl_cons, h]
      rcases max_choice a (f z) with h2 | h2
      · exact Or.inl h2
      · exact Or.inr ⟨z, List.mem_cons_self z l, h2⟩
    · exact Or.inr ⟨x, List.mem_cons_of_mem z hx, by rw [List.foldl_cons, hfx]⟩

lemma foldl_min_cases (f : ℕ → ℚ) (l : List ℕ) (a : ℚ) :
    l.foldl (fun h y => min h (f y)) a = a ∨
      ∃ x ∈ l, l.foldl (fun h y => min h (f y)) a = f x := by
  induction l generalizing a with
  | nil => exact Or.inl rfl
  | cons z l ih =>
    rcases ih (min a (f z)) with h | ⟨x, hx, hfx⟩
    · rw [List.foldl_cons, h]
      rcases min_choice a (f z) with h2 | h2
      · exact Or.inl h2
      · exact Or.inr ⟨z, List.mem_cons_self z l, h2⟩
    · exact Or.inr ⟨x, List.mem_cons_of_mem z hx, by rw [List.foldl_cons, hfx]⟩

lemma windowHigh_ge (data : List KLineData) (period : ℤ) (i : ℕ) :
    ∀ j0 < period.toNat, highAt data (i - j0) ≤ windowHigh data period i := by
  intro j0 hj0
  rw [windowHigh]
  rcases Nat.eq_zero_or_pos j0 with h | h
  · subst h
    rw [Nat.sub_zero]
    exact le_foldl_max _ _ _
  · obtain ⟨j1, rfl⟩ := Nat.exists_eq_succ_of_ne_zero (Nat.pos_iff_ne_zero.mp h)
    exact foldl_max_ge _ _ _ (List.mem_range.mpr (by omega))

lemma windowLow_le (data : List KLineData) (period : ℤ) (i : ℕ) :
    ∀ j0 < period.toNat, windowLow data period i ≤ lowAt data (i - j0) := by
  intro j0 hj0
  rw [windowLow]
  rcases Nat.eq_zero_or_pos j0 with h | h
  · subst h
    rw [Nat.sub_zero]
    exact foldl_min_le _ _ _
  · obtain ⟨j1, rfl⟩ := Nat.exists_eq_succ_of_ne_zero (Nat.pos_iff_ne_zero.mp h)
    exact foldl_min_ge _ _ _ (List.mem_range.mpr (by omega))

lemma windowHigh_attained (data : List KLineData) (period : ℤ) (i : ℕ) :
    ∃ j0 < period.toNat ⊔ 1, windowHigh data period i = highAt data (i - j0) := by
  rw [windowHigh]
  rcases foldl_max_cases (fun j0 => highAt data (i - (j0 + 1)))
      (List.range (period - 1).toNat) (highAt data i) with h | ⟨x, hx, hfx⟩
  · exact ⟨0, by omega, by rw [h, Nat.sub_zero]⟩
  · refine ⟨x + 1, ?_, hfx⟩
    have := List.mem_range.mp hx
    omega

lemma windowLow_attained (data : List KLineData) (period : ℤ) (i : ℕ) :
    ∃ j0 < period.toNat ⊔ 1, windowLow data period i = lowAt data (i - j0) := by
  rw [windowLow]
  rcases foldl_min_cases (fun j0 => lowAt data (i - (j0 + 1)))
      (List.range (period - 1).toNat) (lowAt data i) with h | ⟨x, hx, hfx⟩
  · exact ⟨0, by omega, by rw [h, Nat.sub_zero]⟩
  · refine ⟨x + 1, ?_, hfx⟩
    have := List.mem_range.mp hx
    omega

lemma rsvAt_bounds (data : List KLineData) (period : ℤ) (i : ℕ)
    (hbar : lowAt data i ≤ closeAt data i ∧ closeAt data i ≤ highAt data i) :
    0 ≤ rsvAt data period i ∧ rsvAt data period i ≤ 100 := by
  have hlow : windowLow data period i ≤ lowAt data i := by
    rw [windowLow]; exact foldl_min_le _ _ _
  have hhigh : highAt data i ≤ windowHigh data period i := by
    rw [windowHigh]; exact le_foldl_max _ _ _
  rw [rsvAt]
  split_ifs with heq
  · norm_num
  · have hlc : windowLow data period i ≤ closeAt data i := le_trans hlow hbar.1
    have hch : closeAt data i ≤ windowHigh data period i := le_trans hbar.2 hhigh
    have hlh : windowLow data period i < windowHigh data period i :=
      lt_of_le_of_ne (hlc.trans hch) (fun h => heq h.symm)
    constructor
    · exact mul_nonneg
        (div_nonneg (sub_nonneg.mpr hlc) (le_of_lt (sub_pos.mpr hlh)))
        (by norm_num)
    · have h1 : (closeAt data i - windowLow data period i)
          / (windowHigh data period i - windowLow data period i) ≤ 1 :=
        (div_le_one (sub_pos.mpr hlh)).mpr (by linarith)
      have h2 := mul_le_mul_of_nonneg_right h1 (by norm_num : (0 : ℚ) ≤ 100)
      linarith

lemma kdjFold_bounds (data : List KLineData) (period : ℤ)
    (hbars : ∀ b ∈ data, b.low ≤ b.close ∧ b.close ≤ b.high) :
    ∀ n, n ≤ data.length → ∀ r ∈ kdjFold data period n,
      (0 < r.k ∧ r.k ≤ 100) ∧ (0 < r.d ∧ r.d ≤ 100) ∧ r.j = 3 * r.k - 2 * r.d := by
  intro n
  induction n with
  | zero => intro _ r hr; simp [kdjFold] at hr
  | succ m ih =>
    intro hm r hr
    rw [kdjFold_succ, kdjStep] at hr
    have hbarm : lowAt data m ≤ closeAt data m ∧ closeAt data m ≤ highAt data m :=
      hbars (data.getD m default) (bar_mem data (by omega))
    have hrsv := rsvAt_bounds data period m hbarm
    split at hr
    · rcases List.mem_append.mp hr with h | h
      · exact ih (by omega) r h
      · rw [List.mem_singleton] at h
        subst h
        norm_num
    · simp only [List.mem_append, List.mem_singleton] at hr
      rcases hr with h | h
      · exact ih (by omega) r h
      · subst h
        have hprev : ∀ sel : KDJValue → ℚ,
            (∀ r0 ∈ kdjFold data period m, 0 < sel r0 ∧ sel r0 ≤ 100) →
            0 < (match (kdjFold data period m).get? (m - 1) with
                  | some r0 => jsOrQ (sel r0) 50
                  | none => (50 : ℚ)) ∧
              (match (kdjFold data period m).get? (m - 1) with
                | some r0 => jsOrQ (sel r0) 50
                | none => (50 : ℚ)) ≤ 100 := by
          intro sel hsel
          rcases hg : (kdjFold data period m).get? (m - 1) with _ | r0
          · norm_num
          · have hmem : r0 ∈ kdjFold data period m := List.get?_mem hg
            have hb := hsel r0 hmem
            simp only [jsOrQ]
            rw [if_neg (ne_of_gt hb.1)]
            exact hb
        have hpK := hprev (fun r0 => r0.k) (fun r0 h0 => (ih (by omega) r0 h0).1)
        have hpD := hprev (fun r0 => r0.d) (fun r0 h0 => (ih (by omega) r0 h0).2.1)
        refine ⟨⟨?_, ?_⟩, ⟨?_, ?_⟩, rfl⟩
        · exact div_pos (by linarith [hpK.1, hrsv.1]) (by norm_num)
        · rw [div_le_iff (by norm_num : (0 : ℚ) < 3)]
          linarith [hpK.2, hrsv.2]
        · have hk : 0 < (2 * (match (kdjFold data period m).get? (m - 1) with
              | some r0 => jsOrQ r0.k 50
              | none => (50 : ℚ)) + rsvAt data period m) / 3 :=
            div_pos (by linarith [hpK.1, hrsv.1]) (by norm_num)
          exact div_pos (by linarith [hpD.1]) (by norm_num)
        · have hk : (2 * (match (kdjFold data period m).get? (m - 1) with
              | some r0 => jsOrQ r0.k 50
              | none => (50 : ℚ)) + rsvAt data period m) / 3 ≤ 100 := by
            rw [div_le_iff (by norm_num : (0 : ℚ) < 3)]
            linarith [hpK.2, hrsv.2]
          rw [div_le_iff (by norm_num : (0 : ℚ) < 3)]
          linarith [hpD.2]

lemma getElem?_append_singleton {α : Type _} (l : List α) (x : α) {i : ℕ}
    (h : l.length = i) : (l ++ [x])[i]? = some x := by
  subst h; simp

lemma calculateKDJ_getElem?_eq (data : List KLineData) (period : ℤ) {i : ℕ}
    (hi : i < data.length) :
    (calculateKDJ data period)[i]? = (kdjFold data period (i + 1))[i]? :=
  kdjFold_getElem?_stable data period (by omega) (Nat.lt_succ_self i)

lemma calculateKDJ_getD_eq (data : List KLineData) (period : ℤ) {i : ℕ}
    (hi : i < data.length) :
    (calculateKDJ data period).getD i default =
      if (i : ℤ) < period - 1 then (⟨50, 50, 50⟩ : KDJValue)
      else
        let rsv := rsvAt data period i
        let prevK : ℚ := match (kdjFold data period i).get? (i - 1) with
          | some r => jsOrQ r.k 50
          | none => 50
        let prevD : ℚ := match (kdjFold data period i).get? (i - 1) with
          | some r => jsOrQ r.d 50
          | none => 50
        let k := (2 * prevK + rsv) / 3
        let d := (2 * prevD + k) / 3
        (⟨k, d, 3 * k - 2 * d⟩ : KDJValue) := by
  rw [List.getD_eq_getElem?_getD, calculateKDJ_getElem?_eq data period hi,
    kdjFold_succ, kdjStep]
  have hlen : (kdjFold data period i).length = i := kdjFold_length data period i
  split
  · rw [getElem?_append_singleton _ _ hlen]; rfl
  · simp only []
    rw [getElem?_append_singleton _ _ hlen]
    rfl

lemma kdjFold_get?_prev (data : List KLineData) (period : ℤ) {i : ℕ}
    (hi : i < data.length) (h1 : 1 ≤ i) :
    (kdjFold data period i).get? (i - 1) =
      some ((calculateKDJ data period).getD (i - 1) default) := by
  have hstab : (calculateKDJ data period)[i - 1]? = (kdjFold data period i)[i - 1]? :=
    kdjFold_getElem?_stable data period (le_of_lt hi) (by omega)
  rw [List.get?_eq_getElem?, ← hstab, List.getD_eq_getElem?_getD]
  rcases hg : (calculateKDJ data period)[i - 1]? with _ | r
  · rw [List.getElem?_eq_none_iff, calculateKDJ_length] at hg
    omega
  · rfl

lemma calculateKDJ_getD_mem (data : List KLineData) (period : ℤ) {i : ℕ}
    (hi : i < data.length) :
    (calculateKDJ data period).getD i default ∈ calculateKDJ data period := by
  have hl : i < (calculateKDJ data period).length := by
    rw [calculateKDJ_length]; exact hi
  rw [List.getD_eq_getElem?_getD, List.getElem?_eq_getElem hl]
  exact List.getElem_mem hl

/-! ### C2 -/

/-- C2 counterexample: the claim quantifies over every series, but on a
series whose first bar has `close < low` (violating the §3 data-model
invariant) K reaches exactly 0 at index 0, and the JS fallback
`result[i-1]?.k || 50` then replaces the previous K of 0 by 50 at index 1
with period 1, so the stated recurrence `K[i] = (2*K[i-1] + RSV)/3` fails
there. -/
theorem C2_counterexample :
    ((calculateKDJ cexKdj 1).getD 0 default).k = 0 ∧
    ((calculateKDJ cexKdj 1).getD 1 default).k ≠
      (2 * ((calculateKDJ cexKdj 1).getD 0 default).k + rsvAt cexKdj 1 1) / 3 := by
  constructor <;>
    norm_num [calculateKDJ, kdjFold, kdjStep, rsvAt, windowHigh, windowLow, jsOrQ,
      highAt, lowAt, closeAt, cexKdj, mkBar, List.range_succ,
      show ((1 : ℤ) - 1).toNat = 0 from rfl]

/-- C2 amended: restricted to series satisfying the data-model invariant
`low ≤ close ≤ high` (under which no K or D is ever the falsy 0, so the
`|| 50` fallbacks reduce to the true previous row), the KDJ output is the
neutral seed `{k:50, d:50, j:50}` at every index below `period - 1`, and
from `period - 1` on satisfies exactly `K[i] = (2*K[i-1] + RSV)/3`,
`D[i] = (2*D[i-1] + K[i])/3`, `J[i] = 3*K[i] - 2*D[i]` with
`K[-1] = D[-1] = 50`, where the RSV at `i` is taken from the extrema of
the trailing `period` bars (`windowHigh`/`windowLow` bound and attain
the bars' highs/lows over the window). -/
theorem C2_kdj_seed_and_recurrence (data : List KLineData) (period : ℤ)
    (hp : 1 ≤ period)
    (hbars : ∀ b ∈ data, b.low ≤ b.close ∧ b.close ≤ b.high)
    {i : ℕ} (hi : i < data.length) :
    if (i : ℤ) < period - 1 then
      (calculateKDJ data period).getD i default = ⟨50, 50, 50⟩
    else
      ((∀ j0 < period.toNat, highAt data (i - j0) ≤ windowHigh data period i) ∧
       (∃ j0 < period.toNat, windowHigh data period i = highAt data (i - j0)) ∧
       (∀ j0 < period.toNat, windowLow data period i ≤ lowAt data (i - j0)) ∧
       (∃ j0 < period.toNat, windowLow data period i = lowAt data (i - j0))) ∧
      ((calculateKDJ data period).getD i default).k =
        (2 * (if i = 0 then (50 : ℚ)
              else ((calculateKDJ data period).getD (i - 1) default).k)
          + rsvAt data period i) / 3 ∧
      ((calculateKDJ data period).getD i default).d =
        (2 * (if i = 0 then (50 : ℚ)
              else ((calculateKDJ data period).getD (i - 1) default).d)
          + ((calculateKDJ data period).getD i default).k) / 3 ∧
      ((calculateKDJ data period).getD i default).j =
        3 * ((calculateKDJ data period).getD i default).k
          - 2 * ((calculateKDJ data period).getD i default).d := by
  have hrow := calculateKDJ_getD_eq data period hi
  by_cases hcond : (i : ℤ) < period - 1
  · rw [if_pos hcond] at hrow
    rw [if_pos hcond, hrow]
  · rw [if_neg hcond] at hrow
    simp only [] at hrow
    rw [if_neg hcond]
    have hwin :
        (∀ j0 < period.toNat, highAt data (i - j0) ≤ windowHigh data period i) ∧
        (∃ j0 < period.toNat, windowHigh data period i = highAt data (i - j0)) ∧
        (∀ j0 < period.toNat, windowLow data period i ≤ lowAt data (i - j0)) ∧
        (∃ j0 < period.toNat, windowLow data period i = lowAt data (i - j0)) := by
      refine ⟨windowHigh_ge data period i, ?_, windowLow_le data period i, ?_⟩
      · obtain ⟨j0, hj0, heq⟩ := windowHigh_attained data period i
        exact ⟨j0, by omega, heq⟩
      · obtain ⟨j0, hj0, heq⟩ := windowLow_attained data period i
        exact ⟨j0, by omega, heq⟩
    rcases Nat.eq_zero_or_pos i with hz | hpos
    · subst hz
      have hnone : (kdjFold data period 0).get? (0 - 1) = none := rfl
      rw [hnone] at hrow
      rw [hrow]
      exact ⟨hwin, by norm_num, by norm_num, rfl⟩
    · rw [kdjFold_get?_prev data period hi hpos] at hrow
      have hprevmem := calculateKDJ_getD_mem data period (i := i - 1)
        (by omega : i - 1 < data.length)
      have hb := kdjFold_bounds data period hbars data.length le_rfl _ hprevmem
      simp only [jsOrQ] at hrow
      rw [if_neg (ne_of_gt hb.1.1), if_neg (ne_of_gt hb.2.1.1)] at hrow
      rw [hrow]
      refine ⟨hwin, ?_, ?_, rfl⟩
      · rw [if_neg (by omega : ¬ i = 0)]
      · rw [if_neg (by omega : ¬ i = 0)]

/-- Witness for C2's amended theorem: a valid two-bar series, period 1,
index 1 (the recurrence branch). -/
theorem C2_kdj_witness :
    ((1 ≤ (1 : ℤ)) ∧
      (∀ b ∈ [mkBar 5 10 0 5, mkBar 6 10 0 7], b.low ≤ b.close ∧ b.close ≤ b.high) ∧
      1 < ([mkBar 5 10 0 5, mkBar 6 10 0 7] : List KLineData).length) ∧
    (if ((1 : ℕ) : ℤ) < 1 - 1 then
      (calculateKDJ [mkBar 5 10 0 5, mkBar 6 10 0 7] 1).getD 1 default = ⟨50, 50, 50⟩
    else
      ((∀ j0 < (1 : ℤ).toNat,
          highAt [mkBar 5 10 0 5, mkBar 6 10 0 7] (1 - j0) ≤
            windowHigh [mkBar 5 10 0 5, mkBar 6 10 0 7] 1 1) ∧
       (∃ j0 < (1 : ℤ).toNat,
          windowHigh [mkBar 5 10 0 5, mkBar 6 10 0 7] 1 1 =
            highAt [mkBar 5 10 0 5, mkBar 6 10 0 7] (1 - j0)) ∧
       (∀ j0 < (1 : ℤ).toNat,
          windowLow [mkBar 5 10 0 5, mkBar 6 10 0 7] 1 1 ≤
            lowAt [mkBar 5 10 0 5, mkBar 6 10 0 7] (1 - j0)) ∧
       (∃ j0 < (1 : ℤ).toNat,
          windowLow [mkBar 5 10 0 5, mkBar 6 10 0 7] 1 1 =
            lowAt [mkBar 5 10 0 5, mkBar 6 10 0 7] (1 - j0))) ∧
      ((calculateKDJ [mkBar 5 10 0 5, mkBar 6 10 0 7] 1).getD 1 default).k =
        (2 * (if (1 : ℕ) = 0 then (50 : ℚ)
              else ((calculateKDJ [mkBar 5 10 0 5, mkBar 6 10 0 7] 1).getD (1 - 1) default).k)
          + rsvAt [mkBar 5 10 0 5, mkBar 6 10 0 7] 1 1) / 3 ∧
      ((calculateKDJ [mkBar 5 10 0 5, mkBar 6 10 0 7] 1).getD 1 default).d =
        (2 * (if (1 : ℕ) = 0 then (50 : ℚ)
              else ((calculateKDJ [mkBar 5 10 0 5, mkBar 6 10 0 7] 1).getD (1 - 1) default).d)
          + ((calculateKDJ [mkBar 5 10 0 5, mkBar 6 10 0 7] 1).getD 1 default).k) / 3 ∧
      ((calculateKDJ [mkBar 5 10 0 5, mkBar 6 10 0 7] 1).getD 1 default).j =
        3 * ((calculateKDJ [mkBar 5 10 0 5, mkBar 6 10 0 7] 1).getD 1 default).k
          - 2 * ((calculateKDJ [mkBar 5 10 0 5, mkBar 6 10 0 7] 1).getD 1 default).d) :=
  ⟨⟨by decide, by norm_num [List.forall_mem_cons, mkBar], by decide⟩,
    C2_kdj_seed_and_recurrence [mkBar 5 10 0 5, mkBar 6 10 0 7] 1 (by decide)
      (by norm_num [List.forall_mem_cons, mkBar]) (by decide)⟩

/-! ### C10 -/

/-- C10: under the data-model invariant `low ≤ close ≤ high` and period
≥ 1, every K and D the KDJ computation produces lies in [0,100] (the
recurrence keeps them strictly positive from the 50 seed, so the `|| 50`
fallbacks for a falsy previous value are never exercised), and every
J = 3K - 2D lies in [-200, 300]. -/
theorem C10_kdj_bounded (data : List KLineData) (period : ℤ) (hp : 1 ≤ period)
    (hbars : ∀ b ∈ data, b.low ≤ b.close ∧ b.close ≤ b.high) :
    ∀ r ∈ calculateKDJ data period,
      (0 ≤ r.k ∧ r.k ≤ 100) ∧ (0 ≤ r.d ∧ r.d ≤ 100) ∧
      (-200 ≤ r.j ∧ r.j ≤ 300) := by
  intro r hr
  obtain ⟨⟨hk0, hk1⟩, ⟨hd0, hd1⟩, hj⟩ :=
    kdjFold_bounds data period hbars data.length le_rfl r hr
  exact ⟨⟨le_of_lt hk0, hk1⟩, ⟨le_of_lt hd0, hd1⟩,
    by rw [hj]; constructor <;> linarith⟩

/-- Witness for C10 on a valid two-bar series with the default period 9. -/
theorem C10_kdj_witness :
    ((1 ≤ (9 : ℤ)) ∧
      (∀ b ∈ [mkBar 5 10 0 5, mkBar 6 10 0 7], b.low ≤ b.close ∧ b.close ≤ b.high)) ∧
    (∀ r ∈ calculateKDJ [mkBar 5 10 0 5, mkBar 6 10 0 7] 9,
      (0 ≤ r.k ∧ r.k ≤ 100) ∧ (0 ≤ r.d ∧ r.d ≤ 100) ∧
      (-200 ≤ r.j ∧ r.j ≤ 300)) :=
  ⟨⟨by decide, by norm_num [List.forall_mem_cons, mkBar]⟩,
    C10_kdj_bounded [mkBar 5 10 0 5, mkBar 6 10 0 7] 9 (by decide)
      (by norm_num [List.forall_mem_cons, mkBar])⟩

/-! ### C4 -/

/-- C4: for every series and period ≥ 1, SMA is `None` below index
`period - 1` and the arithmetic mean of the trailing `period` closes
from index `period - 1` on (the `[1,2,3,4,5]` example is the witness). -/
theorem C4_sma_trailing_mean (data : List KLineData) (period : ℤ)
    (hp : 1 ≤ period) {i : ℕ} (hi : i < data.length) :
    (calculateSMA data period).getD i none =
      if (i : ℤ) < period - 1 then none else some (smaSpecValue data period i) :=
  calculateSMA_getD data period hi

/-- Witness for C4: the spec's end-to-end example `SMA([1,2,3,4,5], 5)`
is `None` at the first four indices and `3` at the last, and the general
theorem instantiates there. -/
theorem C4_sma_witness :
    calculateSMA ex5 5 = [none, none, none, none, some 3] ∧
    (1 ≤ (5 : ℤ) ∧ 4 < ex5.length) ∧
    ((calculateSMA ex5 5).getD 4 none =
      if ((4 : ℕ) : ℤ) < 5 - 1 then none else some (smaSpecValue ex5 5 4)) :=
  ⟨by norm_num [calculateSMA, ex5, mkBarC, closeAt, List.range_succ,
      show ((5 : ℤ)).toNat = 5 from rfl],
   ⟨by decide, by decide⟩, C4_sma_trailing_mean ex5 5 (by decide) (by decide)⟩

/-! ### C6 -/

lemma emaFold_all_none (values : List ℚ) (period : ℤ) (m : ℚ)
    (hv : (values.length : ℤ) < period) :
    ∀ n, n ≤ values.length →
      (List.range n).foldl (emaStep values period m) ([], none) =
        (List.replicate n none, none) := by
  intro n
  induction n with
  | zero => intro _; rfl
  | succ k ih =>
    intro hk
    rw [List.range_succ, List.foldl_append, ih (Nat.le_of_succ_le hk)]
    have hkp : (k : ℤ) < period - 1 := by
      have h1 : (k : ℤ) < (values.length : ℤ) := by exact_mod_cast hk
      omega
    simp only [List.foldl_cons, List.foldl_nil, emaStep, if_pos hkp]
    rw [List.replicate_succ']

/-- C6: a series strictly shorter than the period is not an error:
SMA, EMA and RSI all return `None` at every index (each embedded
computation is a total function, so no exception can arise). -/
theorem C6_insufficient_history (data : List KLineData) (values : List ℚ)
    (period : ℤ) (hd : (data.length : ℤ) < period)
    (hv : (values.length : ℤ) < period) :
    (∀ x ∈ calculateSMA data period, x = none) ∧
    (∀ x ∈ calculateEMA values period, x = none) ∧
    (∀ x ∈ calculateRSI data period, x = none) := by
  refine ⟨?_, ?_, ?_⟩
  · intro x hx
    obtain ⟨i, hi, hfi⟩ := mem_map_range hx
    rw [← hfi]
    have : (i : ℤ) < period - 1 := by
      have h1 : (i : ℤ) < (data.length : ℤ) := by exact_mod_cast hi
      omega
    rw [if_pos this]
  · intro x hx
    rw [calculateEMA, emaFold_all_none values period _ hv values.length le_rfl] at hx
    exact List.eq_of_mem_replicate hx
  · intro x hx
    obtain ⟨i, hi, hfi⟩ := mem_map_range hx
    rw [← hfi]
    by_cases h0 : i = 0
    · rw [if_pos h0]
    · rw [if_neg h0]
      have : (i : ℤ) < period := by
        have h1 : (i : ℤ) < (data.length : ℤ) := by exact_mod_cast hi
        omega
      rw [if_pos this]

/-- Witness for C6: a two-bar series with period 5. -/
theorem C6_witness :
    (((([mkBarC 1, mkBarC 2] : List KLineData).length : ℤ) < 5) ∧
      ((([(3 : ℚ), 4] : List ℚ).length : ℤ) < 5)) ∧
    ((∀ x ∈ calculateSMA [mkBarC 1, mkBarC 2] 5, x = none) ∧
     (∀ x ∈ calculateEMA [(3 : ℚ), 4] 5, x = none) ∧
     (∀ x ∈ calculateRSI [mkBarC 1, mkBarC 2] 5, x = none)) :=
  ⟨⟨by decide, by decide⟩,
    C6_insufficient_history [mkBarC 1, mkBarC 2] [(3 : ℚ), 4] 5 (by decide) (by decide)⟩

/-! ### C8 -/

/-- C8 counterexample: for the invalid period 0 the computations return
numeric results instead of failing: `calculateKDJ` emits a well-formed
`{k:50, d:50, j:50}` row, and `calculateSMA` with period `-1` returns a
defined numeric entry.  No `InvalidInput` error exists anywhere in the
code; neither function validates its period. -/
theorem C8_counterexample :
    calculateKDJ [mkBarC 10] 0 = [⟨50, 50, 50⟩] ∧
    calculateSMA [mkBarC 10] (-1) = [some 0] := by
  constructor
  · norm_num [calculateKDJ, kdjFold, kdjStep, rsvAt, windowHigh, windowLow,
      jsOrQ, highAt, lowAt, closeAt, mkBarC, List.range_succ,
      show ((-1 : ℤ)).toNat = 0 from rfl, show ((0 : ℤ) - 1).toNat = 0 from rfl]
  · norm_num [calculateSMA, closeAt, mkBarC, List.range_succ,
      show ((-1 : ℤ)).toNat = 0 from rfl]

/-- C8 amended: no period validation exists; for every period ≤ 0 the
computations return without error: SMA yields a full-length output whose
entries are all defined (JS computes `0/0 = NaN` at period 0 — a number,
not an exception), and KDJ emits one numeric row per bar. -/
theorem C8_no_period_validation (data : List KLineData) (period : ℤ)
    (hp : period ≤ 0) :
    (calculateSMA data period).length = data.length ∧
    (∀ x ∈ calculateSMA data period, x ≠ none) ∧
    (calculateKDJ data period).length = data.length := by
  refine ⟨calculateSMA_length data period, ?_, calculateKDJ_length data period⟩
  intro x hx
  obtain ⟨i, hi, hfi⟩ := mem_map_range hx
  rw [← hfi]
  have : ¬ ((i : ℤ) < period - 1) := by omega
  rw [if_neg this]
  exact Option.some_ne_none _

/-- Witness for C8's amended theorem at a one-bar series and period 0. -/
theorem C8_witness :
    ((0 : ℤ) ≤ 0) ∧
    ((calculateSMA [mkBarC 10] 0).length = ([mkBarC 10] : List KLineData).length ∧
     (∀ x ∈ calculateSMA [mkBarC 10] 0, x ≠ none) ∧
     (calculateKDJ [mkBarC 10] 0).length = ([mkBarC 10] : List KLineData).length) :=
  ⟨by decide, C8_no_period_validation [mkBarC 10] 0 (by decide)⟩

/-! ### C9 -/

/-- C9: a synthetic bar with `open = close`, `high = open + 10`,
`low = open - 10` classifies as Doji for every positive epsilon
threshold (its body is 0, its range 20, so body/range `= 0 < eps`). -/
theorem C9_doji_classification (o eps : ℚ) (heps : 0 < eps) :
    isDoji eps (mkBar o (o + 10) (o - 10) o) = true := by
  rw [isDoji, mkBar]
  simp only [decide_eq_true_eq, sub_self, abs_zero, zero_div]
  exact heps

/-- Witness for C9 at `open = 100`, `eps = 1/10`. -/
theorem C9_doji_witness :
    (0 < (1 / 10 : ℚ)) ∧
    isDoji (1 / 10) (mkBar 100 (100 + 10) (100 - 10) 100) = true :=
  ⟨by norm_num, C9_doji_classification 100 (1 / 10) (by norm_num)⟩

/-! ### C5 -/

lemma sum_abs_neg_filter_eq_zero (l : List ℚ) :
    ((l.filter fun c => decide (c < 0)).map fun c => |c|).sum = 0 ↔
      ∀ c ∈ l, 0 ≤ c := by
  induction l with
  | nil => simp
  | cons c l ih =>
    simp only [List.filter_cons]
    by_cases hc : c < 0
    · rw [if_pos (by simpa using hc)]
      simp only [List.map_cons, List.sum_cons]
      constructor
      · intro h
        exfalso
        have h1 : 0 ≤ ((l.filter fun c => decide (c < 0)).map fun c => |c|).sum :=
          List.sum_nonneg (by
            intro x hx
            obtain ⟨y, _, rfl⟩ := List.mem_map.mp hx
            exact abs_nonneg y)
        have h2 : 0 < |c| := abs_pos.mpr (ne_of_lt hc)
        linarith
      · intro h
        exact absurd (h c (List.mem_cons_self c l)) (not_le.mpr hc)
    · rw [if_neg (by simpa using hc)]
      rw [ih]
      constructor
      · intro h d hd
        rcases List.mem_cons.mp hd with h1 | h1
        · subst h1; exact not_lt.mp hc
        · exact h d h1
      · intro h d hd
        exact h d (List.mem_cons_of_mem c hd)

lemma specGains_nonneg (data : List KLineData) (period : ℤ) (i : ℕ) :
    0 ≤ specGains data period i := by
  rw [specGains]
  refine List.sum_nonneg ?_
  intro x hx
  have := List.of_mem_filter hx
  exact le_of_lt (by simpa using this)

lemma specLosses_nonneg (data : List KLineData) (period : ℤ) (i : ℕ) :
    0 ≤ specLosses data period i := by
  rw [specLosses]
  refine List.sum_nonneg ?_
  intro x hx
  obtain ⟨y, _, rfl⟩ := List.mem_map.mp hx
  exact abs_nonneg y

/-- C5 counterexample: on a constant series every trailing delta is 0 —
so no delta is positive — yet the latest RSI(14) is exactly 100, refuting
the claim's "equals 100 exactly when ... at least one is positive". -/
theorem C5_counterexample :
    (calculateRSI const15 14).getD 14 none = some 100 ∧
    rsiWindow const15 14 14 = List.replicate 14 0 := by
  constructor
  · rw [calculateRSI, getD_map_range _ (by norm_num [const15])]
    norm_num [const15, mkBarC, changesAt, closeAt, List.range_succ,
      show ((14 : ℤ)).toNat = 14 from rfl]
  · norm_num [rsiWindow, const15, mkBarC, changesAt, closeAt, List.range_succ,
      show ((14 : ℤ)).toNat = 14 from rfl, List.replicate_succ]

/-- C5 amended: every defined RSI value lies in [0,100] and equals 100
exactly when all trailing deltas in its window are non-negative
(`avgLoss = 0`) — including the all-zero window of a constant series; the
strictly-increasing 20-bar example (RSI(14) = 100 at the last index) is
the witness. -/
theorem C5_rsi_bounded (data : List KLineData) (period : ℤ) (hp : 1 ≤ period)
    {i : ℕ} (hi : i < data.length) {v : ℚ}
    (hv : (calculateRSI data period).getD i none = some v) :
    (0 ≤ v ∧ v ≤ 100) ∧
    (v = 100 ↔ ∀ c ∈ rsiWindow data period i, 0 ≤ c) := by
  have h := (hv.symm.trans (calculateRSI_getD data period hp hi))
  by_cases hip : (i : ℤ) < period
  · rw [if_pos hip] at h
    cases h
  · rw [if_neg hip] at h
    have hv' : v = rsiSpecValue data period i := Option.some.inj h
    have hG0 := specGains_nonneg data period i
    have hL0 := specLosses_nonneg data period i
    have hpq : (0 : ℚ) < (period : ℚ) := by exact_mod_cast lt_of_lt_of_le one_pos hp
    rw [rsiSpecValue] at hv'
    by_cases hLz : specLosses data period i / (period : ℚ) = 0
    · rw [if_pos hLz] at hv'
      have hLzero : specLosses data period i = 0 := by
        rcases div_eq_zero_iff.mp hLz with h1 | h1
        · exact h1
        · exact absurd h1 (ne_of_gt hpq)
      subst hv'
      refine ⟨⟨by norm_num, le_refl _⟩, ?_⟩
      rw [specLosses, sum_abs_neg_filter_eq_zero] at hLzero
      exact ⟨fun _ => hLzero, fun _ => rfl⟩
    · rw [if_neg hLz] at hv'
      have hLpos : 0 < specLosses data period i := by
        rcases lt_or_eq_of_le hL0 with h1 | h1
        · exact h1
        · exact absurd (by rw [← h1, zero_div]) hLz
      set rs := specGains data period i / (period : ℚ)
          / (specLosses data period i / (period : ℚ)) with hrs
      have hrs0 : 0 ≤ rs := by
        apply div_nonneg (div_nonneg hG0 (le_of_lt hpq))
        exact le_of_lt (div_pos hLpos hpq)
      have h1rs : (0 : ℚ) < 1 + rs := by linarith
      have hfrac0 : 0 < 100 / (1 + rs) := div_pos (by norm_num) h1rs
      have hfrac1 : 100 / (1 + rs) ≤ 100 := by
        rw [div_le_iff₀ h1rs]
        nlinarith
      constructor
      · constructor <;> rw [hv'] <;> linarith
      · constructor
        · intro h100
          rw [hv'] at h100
          exfalso
          linarith
        · intro hall
          exfalso
          have : specLosses data period i = 0 := by
            rw [specLosses, sum_abs_neg_filter_eq_zero]
            exact hall
          exact absurd this (ne_of_gt hLpos)

/-- Witness for C5: the spec's 20 strictly increasing closes; the latest
RSI(14) equals 100, and the general theorem instantiates there. -/
theorem C5_rsi_witness :
    ((1 ≤ (14 : ℤ)) ∧ 19 < inc20.length ∧
      (calculateRSI inc20 14).getD 19 none = some 100) ∧
    ((0 ≤ (100 : ℚ) ∧ (100 : ℚ) ≤ 100) ∧
      ((100 : ℚ) = 100 ↔ ∀ c ∈ rsiWindow inc20 14 19, 0 ≤ c)) := by
  have hRSI : (calculateRSI inc20 14).getD 19 none = some 100 := by
    rw [calculateRSI, getD_map_range _ (by norm_num [inc20])]
    norm_num [inc20, mkBarC, changesAt, closeAt, List.range_succ,
      show ((14 : ℤ)).toNat = 14 from rfl]
  exact ⟨⟨by decide, by decide, hRSI⟩,
    C5_rsi_bounded inc20 14 (by decide) (by decide) hRSI⟩

/-! ### C3 -/

/-- C3 counterexample: 15 strictly decreasing closes drive the latest
RSI(14) to exactly 0 — defined and strictly below 30 — yet the signal
classifier returns `neutral`, not `buy`: the JS condition
`latestRSI ? … : 'neutral'` treats the value 0 as falsy. -/
theorem C3_counterexample :
    (calculateRSI dec15 14).getD 14 none = some 0 ∧
    rsiSignal (some 0) = Signal.neutral ∧ Signal.neutral ≠ Signal.buy := by
  refine ⟨?_, by norm_num [rsiSignal], by decide⟩
  rw [calculateRSI, getD_map_range _ (by norm_num [dec15])]
  norm_num [dec15, mkBarC, changesAt, closeAt, List.range_succ,
    show ((14 : ℤ)).toNat = 14 from rfl]

/-- C3 amended: the RSI signal rule with the falsy zero made explicit —
`neutral` when the RSI is `None` or exactly 0; otherwise `buy` below 30,
`sell` above 70, `neutral` in between.  The source classifier agrees with
this amended rule at every input. -/
theorem C3_rsi_signal_rule : ∀ r : Option ℚ, rsiSignal r = rsiSignalSpec r := by
  intro r
  cases r with
  | none => rfl
  | some v =>
    simp only [rsiSignal, rsiSignalSpec]
    split_ifs <;> first | rfl | linarith

/-! ### C7 -/

lemma latestSMA_none (data : List KLineData) (period : ℤ) (hne : data ≠ [])
    (hlen : (data.length : ℤ) < period) :
    (calculateSMA data period).getD ((calculateSMA data period).length - 1) none =
      none := by
  have hpos : 0 < data.length := List.length_pos.mpr hne
  rw [calculateSMA_length]
  rw [calculateSMA_getD data period (i := data.length - 1) (by omega), if_pos (by omega)]

lemma latestRSI_none (data : List KLineData) (period : ℤ) (hne : data ≠ [])
    (hp : 1 ≤ period) (hlen : (data.length : ℤ) ≤ period) :
    (calculateRSI data period).getD ((calculateRSI data period).length - 1) none =
      none := by
  have hpos : 0 < data.length := List.length_pos.mpr hne
  rw [calculateRSI_length]
  rw [calculateRSI_getD data period hp (i := data.length - 1) (by omega),
    if_pos (by omega)]

/-- C7 counterexample: on a one-bar series every entry is present, but
the entries' values are the numeric fallbacks 0 (moving averages) and 50
(RSI, KDJ) — the report's `value` field is a plain number and is never
`None`, even though the underlying latest SMA really is `None`.  This
falsifies the claim's "the entry's value is None ... when history is
insufficient". -/
theorem C7_counterexample :
    (calculateSMA [mkBar 5 10 0 5] 5).getD 0 none = none ∧
    buildIndicators [mkBar 5 10 0 5] = some
      [ ⟨"MA5", 0, some Signal.neutral, "5日均线"⟩,
        ⟨"MA10", 0, some Signal.neutral, "10日均线"⟩,
        ⟨"MA20", 0, none, "20日均线"⟩,
        ⟨"RSI", 50, some Signal.neutral, "相对强弱指数"⟩,
        ⟨"KDJ.K", 50, some Signal.neutral, "K值"⟩,
        ⟨"KDJ.D", 50, none, "D值"⟩,
        ⟨"KDJ.J", 50, some Signal.neutral, "J值"⟩ ] := by
  constructor
  · norm_num [calculateSMA, closeAt, mkBar, List.range_succ,
      show ((5 : ℤ)).toNat = 5 from rfl]
  · norm_num [buildIndicators, calculateSMA, calculateRSI, calculateKDJ, kdjFold,
      kdjStep, rsvAt, windowHigh, windowLow, maCrossSignal, rsiSignal, jsOrOpt,
      jsOrQ, closeAt, highAt, lowAt, mkBar, List.range_succ,
      show ((5 : ℤ)).toNat = 5 from rfl, show ((9 : ℤ) - 1).toNat = 8 from rfl]

/-- C7 amended: for every nonempty series the assembled report contains
an entry for every indicator — the fixed seven, in order — and the
assembly is a total function (never throws); when history is insufficient
an entry's value falls back to the number 0 (moving averages) or 50
(RSI), not `None`, with a neutral signal, MA20 and KDJ.D carry no signal
field at all, and the KDJ signals are neutral exactly when no previous
bar exists.  For the empty series the component returns early and
assembles nothing. -/
theorem C7_report_completeness (klineData : List KLineData)
    (hne : klineData ≠ []) :
    ∃ report, buildIndicators klineData = some report ∧
      report.map (fun e => e.name) =
        ["MA5", "MA10", "MA20", "RSI", "KDJ.K", "KDJ.D", "KDJ.J"] ∧
      (klineData.length < 5 →
        (report.getD 0 default).value = 0 ∧
        (report.getD 0 default).signal = some Signal.neutral) ∧
      (klineData.length < 10 →
        (report.getD 1 default).value = 0 ∧
        (report.getD 1 default).signal = some Signal.neutral) ∧
      (klineData.length < 20 → (report.getD 2 default).value = 0) ∧
      (report.getD 2 default).signal = none ∧
      (klineData.length < 15 →
        (report.getD 3 default).value = 50 ∧
        (report.getD 3 default).signal = some Signal.neutral) ∧
      (report.getD 5 default).signal = none ∧
      (klineData.length < 2 →
        (report.getD 4 default).signal = some Signal.neutral ∧
        (report.getD 6 default).signal = some Signal.neutral) := by
  have hlen0 : ¬ klineData.length = 0 :=
    fun h => hne (List.length_eq_zero.mp h)
  rw [buildIndicators, if_neg hlen0]
  refine ⟨_, rfl, rfl, ?_, ?_, ?_, rfl, ?_, rfl, ?_⟩
  · intro h5
    have hS5 := latestSMA_none klineData 5 hne (by omega)
    constructor
    · show jsOrOpt ((calculateSMA klineData 5).getD
        ((calculateSMA klineData 5).length - 1) none) 0 = 0
      rw [hS5]; rfl
    · show some (maCrossSignal ((calculateSMA klineData 5).getD
          ((calculateSMA klineData 5).length - 1) none)
          ((calculateSMA klineData 10).getD
            ((calculateSMA klineData 10).length - 1) none)) = some Signal.neutral
      rw [hS5]; rfl
  · intro h10
    have hS10 := latestSMA_none klineData 10 hne (by omega)
    constructor
    · show jsOrOpt ((calculateSMA klineData 10).getD
        ((calculateSMA klineData 10).length - 1) none) 0 = 0
      rw [hS10]; rfl
    · show some (maCrossSignal ((calculateSMA klineData 10).getD
          ((calculateSMA klineData 10).length - 1) none)
          ((calculateSMA klineData 20).getD
            ((calculateSMA klineData 20).length - 1) none)) = some Signal.neutral
      rw [hS10]; rfl
  · intro h20
    have hS20 := latestSMA_none klineData 20 hne (by omega)
    show jsOrOpt ((calculateSMA klineData 20).getD
      ((calculateSMA klineData 20).length - 1) none) 0 = 0
    rw [hS20]; rfl
  · intro h15
    have hR := latestRSI_none klineData 14 hne (by decide) (by omega)
    constructor
    · show jsOrOpt ((calculateRSI klineData 14).getD
        ((calculateRSI klineData 14).length - 1) none) 50 = 50
      rw [hR]; rfl
    · show some (rsiSignal ((calculateRSI klineData 14).getD
        ((calculateRSI klineData 14).length - 1) none)) = some Signal.neutral
      rw [hR]; rfl
  · intro h2
    have hprev : ¬ klineData.length > 1 := by omega
    constructor
    · show some (match (calculateKDJ klineData 9).get?
            ((calculateKDJ klineData 9).length - 1),
          (if klineData.length > 1
            then some (klineData.getD (klineData.length - 2) default)
            else none) with
          | some lk, some _ =>
            if lk.k > (match (calculateKDJ klineData 9).get?
                ((calculateKDJ klineData 9).length - 2) with
              | some r => jsOrQ r.k 50
              | none => 50)
            then Signal.buy else Signal.sell
          | _, _ => Signal.neutral) = some Signal.neutral
      rw [if_neg hprev]
      rcases (calculateKDJ klineData 9).get?
          ((calculateKDJ klineData 9).length - 1) with _ | r <;> rfl
    · show some (match (calculateKDJ klineData 9).get?
            ((calculateKDJ klineData 9).length - 1),
          (if klineData.length > 1
            then some (klineData.getD (klineData.length - 2) default)
            else none) with
          | some lk, some _ =>
            if lk.j > (match (calculateKDJ klineData 9).get?
                ((calculateKDJ klineData 9).length - 2) with
              | some r => jsOrQ r.j 50
              | none => 50)
            then Signal.buy else Signal.sell
          | _, _ => Signal.neutral) = some Signal.neutral
      rw [if_neg hprev]
      rcases (calculateKDJ klineData 9).get?
          ((calculateKDJ klineData 9).length - 1) with _ | r <;> rfl

/-- Witness for C7's amended theorem at a concrete one-bar series. -/
theorem C7_report_witness :
    (([mkBar 5 10 0 5] : List KLineData) ≠ []) ∧
    (∃ report, buildIndicators [mkBar 5 10 0 5] = some report ∧
      report.map (fun e => e.name) =
        ["MA5", "MA10", "MA20", "RSI", "KDJ.K", "KDJ.D", "KDJ.J"] ∧
      (([mkBar 5 10 0 5] : List KLineData).length < 5 →
        (report.getD 0 default).value = 0 ∧
        (report.getD 0 default).signal = some Signal.neutral) ∧
      (([mkBar 5 10 0 5] : List KLineData).length < 10 →
        (report.getD 1 default).value = 0 ∧
        (report.getD 1 default).signal = some Signal.neutral) ∧
      (([mkBar 5 10 0 5] : List KLineData).length < 20 →
        (report.getD 2 default).value = 0) ∧
      (report.getD 2 default).signal = none ∧
      (([mkBar 5 10 0 5] : List KLineData).length < 15 →
        (report.getD 3 default).value = 50 ∧
        (report.getD 3 default).signal = some Signal.neutral) ∧
      (report.getD 5 default).signal = none ∧
      (([mkBar 5 10 0 5] : List KLineData).length < 2 →
        (report.getD 4 default).signal = some Signal.neutral ∧
        (report.getD 6 default).signal = some Signal.neutral)) :=
  ⟨by decide, C7_report_completeness [mkBar 5 10 0 5] (by decide)⟩

end StockAnalysis
